import Mathlib

set_option maxRecDepth 8000

/-!
Shallow embedding of the clinic backend in src/server.js.

JS objects used as string-keyed maps (globalQuota.drugs, report.drugs,
drugQuantities) are modelled as association lists in insertion order:
assigning to an existing key keeps its position, assigning a missing key
appends it at the end, exactly as JS object properties behave.

Machine-level details modelled explicitly:
  - `parseInt(x) || 0` on a value that is either a number or missing/NaN is
    modelled on `Option Int` (missing or NaN gives 0; note that 0 || 0 = 0).
  - ISO date strings "YYYY-MM-DD" are modelled as `SimpleDate` triples; the
    string format is injective, so string equality is triple equality.
    JS `Date.getMonth()` is the zero-based month, which ignores the year.
  - Timestamps (`Date.now()`, `expiresAt`) are epoch milliseconds as `Int`.
  - Purely presentational fields never read by the modelled logic
    (createdAt, persianDate, deliveryTime, updatedAt, ...) are omitted.
-/

/-- Lookup in a JS object modelled as an association list (first match). -/
def aFind {α : Type} : List (String × α) → String → Option α
  | [], _ => none
  | (k, v) :: rest, key => if k = key then some v else aFind rest key

/-- JS property assignment: update in place if the key exists, else append. -/
def aSet {α : Type} : List (String × α) → String → α → List (String × α)
  | [], key, v => [(key, v)]
  | (k, w) :: rest, key, v =>
      if k = key then (key, v) :: rest else (k, w) :: aSet rest key v

theorem aFind_aSet {α : Type} (m : List (String × α)) (k key : String) (v : α) :
    aFind (aSet m k v) key = if k = key then some v else aFind m key := by
  induction m with
  | nil => by_cases h : k = key <;> simp [aSet, aFind, h]
  | cons p rest ih =>
    obtain ⟨a, w⟩ := p
    simp only [aSet]
    by_cases h1 : a = k
    · subst h1
      by_cases h2 : a = key
      · subst h2
        simp [aFind]
      · simp [aFind, h2, if_neg h2]
    · rw [if_neg h1]
      simp only [aFind]
      by_cases h2 : a = key
      · subst h2
        have hk : ¬ k = a := fun h => h1 h.symm
        simp [if_neg hk]
      · simp [h2, ih]

theorem aFind_mem {α : Type} {m : List (String × α)} {k : String} {v : α}
    (h : aFind m k = some v) : (k, v) ∈ m := by
  induction m with
  | nil => simp [aFind] at h
  | cons p rest ih =>
    obtain ⟨a, w⟩ := p
    simp only [aFind] at h
    by_cases h1 : a = k
    · subst h1
      rw [if_pos rfl] at h
      cases h
      exact List.mem_cons_self _ _
    · rw [if_neg h1] at h
      exact List.mem_cons_of_mem _ (ih h)

theorem mem_aSet {α : Type} {m : List (String × α)} {k : String} {v : α} {q : String × α}
    (h : q ∈ aSet m k v) : q ∈ m ∨ q = (k, v) := by
  induction m with
  | nil =>
    simp only [aSet] at h
    rcases List.mem_singleton.mp h with h1
    exact Or.inr h1
  | cons p rest ih =>
    obtain ⟨a, w⟩ := p
    simp only [aSet] at h
    by_cases h1 : a = k
    · rw [if_pos h1] at h
      rcases List.mem_cons.mp h with h2 | h2
      · exact Or.inr h2
      · exact Or.inl (List.mem_cons_of_mem _ h2)
    · rw [if_neg h1] at h
      rcases List.mem_cons.mp h with h2 | h2
      · exact Or.inl (h2 ▸ List.mem_cons_self _ _)
      · rcases ih h2 with h3 | h3
        · exact Or.inl (List.mem_cons_of_mem _ h3)
        · exact Or.inr h3

theorem aFind_mapSnd {α β : Type} (f : α → β) (m : List (String × α)) (k : String) :
    aFind (m.map (fun p => (p.1, f p.2))) k = (aFind m k).map f := by
  induction m with
  | nil => simp [aFind]
  | cons p rest ih =>
    obtain ⟨a, w⟩ := p
    by_cases h : a = k <;> simp [aFind, h, ih]

/-- Character-list helper for JS `String.prototype.includes`. -/
def hasPre : List Char → List Char → Bool
  | [], _ => true
  | _ :: _, [] => false
  | a :: as, b :: bs => a == b && hasPre as bs

def containsSeq (needle : List Char) : List Char → Bool
  | [] => needle.isEmpty
  | c :: rest => hasPre needle (c :: rest) || containsSeq needle rest

/-- JS `s.includes(pat)`. -/
def jsIncludes (s pat : String) : Bool := containsSeq pat.toList s.toList

/-- JS `s.trim()`: drop leading and trailing whitespace. -/
def jsTrim (s : String) : String :=
  ⟨((s.toList.dropWhile Char.isWhitespace).reverse.dropWhile Char.isWhitespace).reverse⟩

/-- An ISO "YYYY-MM-DD" date; the textual format is injective so string
equality of the stored dates is equality of the triples. -/
structure SimpleDate where
  year : Int
  month : Int
  day : Int
deriving DecidableEq

/-- JS `Date.getMonth()`: zero-based month of year; the year is ignored. -/
def getMonth (d : SimpleDate) : Int := d.month - 1

/-- The ambient clock of one request: the "YYYY-MM-DD" part of the current
time, the epoch-milliseconds value of `new Date(thatString)` (midnight),
and `Date.now()`. -/
structure Today where
  date : SimpleDate
  midnight : Int
  now : Int
deriving DecidableEq

/-- The fixed drug list of the server. -/
def VALID_DRUGS : List String :=
  ["شربت متادون", "شربت اپیوم", "قرص متادون 5", "قرص متادون 20", "قرص متادون 40"]

/-- Drug type label: liquid drugs contain the word for syrup. -/
def typeOf (drug : String) : String := if jsIncludes drug "شربت" then "cc" else "عدد"

structure MonthlyQuota where
  month : String
  amount : Int
  expiryDays : Int
  addedAt : Int
  expiresAt : Int
deriving DecidableEq

structure ManualAdjustment where
  date : Int
  action : String
  amount : Int
  description : String
  previousQuota : Option Int
  newQuota : Int
deriving DecidableEq

structure DrugQuota where
  totalQuota : Int
  lastUpdated : SimpleDate
  warningSent : Bool
  monthlyQuotas : List MonthlyQuota
  manualAdjustments : List ManualAdjustment
deriving DecidableEq

structure GlobalQuota where
  drugs : List (String × DrugQuota)
deriving DecidableEq

/-- Entry lazily created for a configured drug (totalQuota 10000). -/
def defaultDrugEntry (today : Today) : DrugQuota :=
  ⟨10000, today.date, false, [], []⟩

/-- One step of the structure-ensuring loop of manageGlobalQuota. -/
def ensureStep (today : Today) (acc : List (String × DrugQuota)) (d : String) :
    List (String × DrugQuota) :=
  match aFind acc d with
  | some _ => acc
  | none => aSet acc d (defaultDrugEntry today)

def ensureDrugs (today : Today) (m : List (String × DrugQuota)) :
    List (String × DrugQuota) :=
  VALID_DRUGS.foldl (ensureStep today) m

/-- The monthly reset applied to one drug entry by manageGlobalQuota:
reset exactly when the stored date string differs from today AND the
zero-based months differ (the year plays no role); on reset the quota
returns to 10000, the warning flag clears, and monthlyQuotas entries whose
expiry instant is not after the midnight of today are dropped. -/
def resetEntry (today : Today) (e : DrugQuota) : DrugQuota :=
  if e.lastUpdated ≠ today.date ∧ getMonth e.lastUpdated ≠ getMonth today.date then
    { e with totalQuota := 10000, lastUpdated := today.date, warningSent := false,
             monthlyQuotas := e.monthlyQuotas.filter (fun q => today.midnight < q.expiresAt) }
  else e

/-- manageGlobalQuota: ensure entries for all configured drugs, then apply
the monthly reset rule per drug, persist, return. -/
def manageGlobalQuota (today : Today) (g : GlobalQuota) : GlobalQuota :=
  ⟨(ensureDrugs today g.drugs).map (fun p => (p.1, resetEntry today p.2))⟩

def totalOf (g : GlobalQuota) (k : String) : Option Int :=
  (aFind g.drugs k).map (fun e => e.totalQuota)

/-- The claim reading of "lies in a previous calendar month": strictly
earlier (year, month). Stated from the claim text, for comparison with the
source behaviour. -/
def calMonthBefore (a b : SimpleDate) : Prop :=
  a.year < b.year ∨ (a.year = b.year ∧ a.month < b.month)

instance (a b : SimpleDate) : Decidable (calMonthBefore a b) := by
  unfold calMonthBefore; infer_instance

theorem aFind_foldl_ensure (today : Today) (l : List String)
    (m : List (String × DrugQuota)) {k : String} {e : DrugQuota}
    (h : aFind m k = some e) :
    aFind (l.foldl (ensureStep today) m) k = some e := by
  induction l generalizing m with
  | nil => simpa using h
  | cons d rest ih =>
    simp only [List.foldl_cons]
    apply ih
    unfold ensureStep
    cases hd : aFind m d with
    | some _ => exact h
    | none =>
      rw [aFind_aSet]
      have hne : ¬ d = k := by
        intro h1; subst h1; rw [h] at hd; cases hd
      simp [hne, h]

theorem aFind_manage (today : Today) (g : GlobalQuota) {k : String} {e : DrugQuota}
    (h : aFind g.drugs k = some e) :
    aFind (manageGlobalQuota today g).drugs k = some (resetEntry today e) := by
  unfold manageGlobalQuota
  simp only
  rw [aFind_mapSnd]
  unfold ensureDrugs
  rw [aFind_foldl_ensure today VALID_DRUGS g.drugs h]
  rfl

theorem resetEntry_of_monthEq (today : Today) (e : DrugQuota)
    (h : getMonth e.lastUpdated = getMonth today.date) :
    resetEntry today e = e := by
  unfold resetEntry
  rw [if_neg]
  intro hc
  exact hc.2 h

theorem aFind_manage_of_monthEq (today : Today) (g : GlobalQuota) {k : String}
    {e : DrugQuota} (h : aFind g.drugs k = some e)
    (hm : getMonth e.lastUpdated = getMonth today.date) :
    aFind (manageGlobalQuota today g).drugs k = some e := by
  rw [aFind_manage today g h, resetEntry_of_monthEq today e hm]

/-- Claim C5 as stated is false: a drug whose lastUpdated lies in a previous
calendar month relative to today (October 2024 versus October 2025) is NOT
reset by the quota read, because the code compares only the zero-based
month-of-year returned by getMonth and ignores the year; the total quota
stays at 5 instead of being reset to 10000. -/
theorem c5_reset_counterexample :
    calMonthBefore ⟨2024, 10, 5⟩ ⟨2025, 10, 11⟩ ∧
    totalOf (manageGlobalQuota ⟨⟨2025, 10, 11⟩, 0, 0⟩
      ⟨[("شربت متادون", ⟨5, ⟨2024, 10, 5⟩, false, [], []⟩)]⟩) "شربت متادون" = some 5 := by
  constructor
  · exact Or.inl (by decide)
  · decide

/-- Claim C5, amended: on a global-quota read, a drug entry is reset exactly
when its lastUpdated date differs from today AND its month-of-year differs
from the month-of-year of today (the year is ignored, so an equal
month-of-year in a different year does not reset); on reset totalQuota
becomes 10000, warningSent clears, lastUpdated becomes today and exactly the
monthlyQuotas entries whose expiresAt instant is not after the midnight of
today are removed; an entry whose month-of-year equals that of today is left
unchanged. -/
theorem c5_monthly_reset (today : Today) (g : GlobalQuota) (k : String)
    (e : DrugQuota) (h : aFind g.drugs k = some e) :
    aFind (manageGlobalQuota today g).drugs k = some (resetEntry today e) ∧
    (e.lastUpdated ≠ today.date → getMonth e.lastUpdated ≠ getMonth today.date →
      resetEntry today e =
        { e with totalQuota := 10000, lastUpdated := today.date, warningSent := false,
                 monthlyQuotas := e.monthlyQuotas.filter (fun q => today.midnight < q.expiresAt) }) ∧
    (getMonth e.lastUpdated = getMonth today.date → resetEntry today e = e) := by
  refine ⟨aFind_manage today g h, ?_, resetEntry_of_monthEq today e⟩
  intro h1 h2
  unfold resetEntry
  rw [if_pos ⟨h1, h2⟩]

/-- Witness for c5_monthly_reset: a stale entry (September 2025, quota 3)
read on 2025-10-11 is reset to 10000 and drops the expired monthly quota. -/
theorem c5_monthly_reset_witness :
    aFind (manageGlobalQuota ⟨⟨2025, 10, 11⟩, 100, 100⟩
      ⟨[("شربت متادون", ⟨3, ⟨2025, 9, 20⟩, true, [⟨"مهر", 7, 30, 0, 50⟩], []⟩)]⟩).drugs
      "شربت متادون"
      = some ⟨10000, ⟨2025, 10, 11⟩, false, [], []⟩ := by
  have h := c5_monthly_reset ⟨⟨2025, 10, 11⟩, 100, 100⟩
    ⟨[("شربت متادون", ⟨3, ⟨2025, 9, 20⟩, true, [⟨"مهر", 7, 30, 0, 50⟩], []⟩)]⟩
    "شربت متادون" ⟨3, ⟨2025, 9, 20⟩, true, [⟨"مهر", 7, 30, 0, 50⟩], []⟩ (by decide)
  rw [h.1, h.2.1 (by decide) (by decide)]
  decide

/-- One entry of a monthly report drugs map. -/
structure RepEntry where
  quantity : Int
  type : String
deriving DecidableEq

abbrev DrugsMap := List (String × RepEntry)

/-- A stored drug delivery (presentational timestamp fields omitted). -/
structure Delivery where
  id : String
  recordNumber : String
  patientName : String
  nationalCode : String
  drugs : List String
  drugQuantities : List (String × Option Int)
  reason : String
  month : String
  year : Int
deriving DecidableEq

/-- A stored monthly report document. -/
structure Report where
  month : String
  year : Int
  drugs : DrugsMap
  totalUsed : Int
  remaining : Int
  exceeded : Int
deriving DecidableEq

/-- `parseInt(drugQuantities[k]) || 0`: missing key or NaN gives 0. -/
def qtyOf (dq : List (String × Option Int)) (k : String) : Int :=
  match aFind dq k with
  | some (some n) => n
  | _ => 0

/-- Fresh report drugs map: every configured drug at quantity 0. -/
def initDrugsMap : DrugsMap :=
  VALID_DRUGS.map (fun d => (d, ⟨0, typeOf d⟩))

def freshReport (month : String) (year : Int) : Report :=
  ⟨month, year, initDrugsMap, 0, 0, 0⟩

/-- Add the delivered quantity of one drug name to the report drugs map
(update the entry if present, else append a new entry with its type). -/
def addDrugQty (dq : List (String × Option Int)) (m : DrugsMap) (drug : String) :
    DrugsMap :=
  match aFind m drug with
  | some e => aSet m drug { e with quantity := e.quantity + qtyOf dq drug }
  | none => aSet m drug ⟨qtyOf dq drug, typeOf drug⟩

/-- Fold one delivery into the report drugs map (forEach over its drugs). -/
def addDelivery (m : DrugsMap) (d : Delivery) : DrugsMap :=
  d.drugs.foldl (addDrugQty d.drugQuantities) m

/-- Reset every quantity of the report drugs map to zero. -/
def resetQuantities (m : DrugsMap) : DrugsMap :=
  m.map (fun p => (p.1, { p.2 with quantity := 0 }))

/-- The recomputation shared by the monthly-report read and
recalcMonthlyReport: zero all quantities, then re-sum every stored delivery
matching the month and year keys. -/
def computeDrugs (base : DrugsMap) (deliveries : List Delivery)
    (month : String) (year : Int) : DrugsMap :=
  (deliveries.filter (fun d => d.month == month && d.year == year)).foldl
    addDelivery (resetQuantities base)

def sumQ (m : DrugsMap) : Int := (m.map (fun p => p.2.quantity)).sum

/-- The report returned by GET /api/monthly-report: take the stored report
for the key (or a fresh one), recompute all quantities from the delivery
log, and recompute totalUsed. -/
def computeReport (reports : List Report) (deliveries : List Delivery)
    (month : String) (year : Int) : Report :=
  let base :=
    match reports.find? (fun r => r.month == month && r.year == year) with
    | some r => r
    | none => freshReport month year
  let m := computeDrugs base.drugs deliveries month year
  { base with drugs := m, totalUsed := sumQ m }

/-- JS Array.prototype.findIndex. -/
def findIdxA {α : Type} (p : α → Bool) : List α → Option Nat
  | [] => none
  | a :: l => if p a then some 0 else (findIdxA p l).map (· + 1)

/-- recalcMonthlyReport: full recomputation of one stored report from the
delivery log, creating the report if absent, then persisting the list. -/
def recalcMonthlyReport (month : String) (year : Int) (deliveries : List Delivery)
    (reports : List Report) : List Report :=
  let located :=
    match findIdxA (fun r => r.month == month && r.year == year) reports with
    | some i => (reports, i)
    | none => (reports ++ [freshReport month year], reports.length)
  match located.1.get? located.2 with
  | none => located.1
  | some r =>
    let m := computeDrugs r.drugs deliveries month year
    located.1.set located.2 { r with drugs := m, totalUsed := sumQ m }

/-- The quantity recorded for drug k in a report drugs map (0 if absent). -/
def quantityAt (m : DrugsMap) (k : String) : Int :=
  match aFind m k with
  | some e => e.quantity
  | none => 0

/-- The claim-side sum: total of `drugQuantities[k]` over all stored
deliveries whose month and year match. -/
def deliveredSum (deliveries : List Delivery) (month : String) (year : Int)
    (k : String) : Int :=
  ((deliveries.filter (fun d => d.month == month && d.year == year)).map
    (fun d => qtyOf d.drugQuantities k)).sum

theorem quantityAt_addDrugQty (dq : List (String × Option Int)) (m : DrugsMap)
    (a k : String) :
    quantityAt (addDrugQty dq m a) k =
      quantityAt m k + (if a = k then qtyOf dq a else 0) := by
  unfold addDrugQty quantityAt
  cases hf : aFind m a with
  | some e =>
    rw [aFind_aSet]
    by_cases h : a = k
    · subst h; simp [hf]
    · simp [h]
  | none =>
    rw [aFind_aSet]
    by_cases h : a = k
    · subst h; simp [hf]
    · simp [h]

theorem quantityAt_foldl_addDrugQty (dq : List (String × Option Int))
    (l : List String) (m : DrugsMap) (k : String) :
    quantityAt (l.foldl (addDrugQty dq) m) k =
      quantityAt m k + (l.count k : Int) * qtyOf dq k := by
  induction l generalizing m with
  | nil => simp
  | cons a rest ih =>
    simp only [List.foldl_cons]
    rw [ih, quantityAt_addDrugQty, List.count_cons]
    by_cases h : a = k
    · subst h
      simp only [beq_self_eq_true, if_true]
      push_cast
      ring
    · have hk : ¬ k = a := fun h1 => h (h1.symm)
      simp only [beq_iff_eq, if_neg hk, if_neg h]
      push_cast
      ring

theorem quantityAt_resetQuantities (m : DrugsMap) (k : String) :
    quantityAt (resetQuantities m) k = 0 := by
  induction m with
  | nil => rfl
  | cons p rest ih =>
    obtain ⟨a, e⟩ := p
    show quantityAt ((a, { e with quantity := 0 }) :: resetQuantities rest) k = 0
    unfold quantityAt
    simp only [aFind]
    by_cases h : a = k
    · rw [if_pos h]
    · rw [if_neg h]
      exact ih

theorem quantityAt_foldl_addDelivery (ds : List Delivery) (m : DrugsMap) (k : String) :
    quantityAt (ds.foldl addDelivery m) k =
      quantityAt m k +
        (ds.map (fun d => (d.drugs.count k : Int) * qtyOf d.drugQuantities k)).sum := by
  induction ds generalizing m with
  | nil => simp
  | cons d rest ih =>
    simp only [List.foldl_cons, List.map_cons, List.sum_cons]
    rw [ih]
    unfold addDelivery
    rw [quantityAt_foldl_addDrugQty]
    ring

/-- Core recomputation fact: under the data-model shape of deliveries
(duplicate-free drug lists, quantity keys drawn from the drug list), the
recomputed per-drug quantity is the claim-side sum over matching deliveries,
whatever the stored report contained. -/
theorem quantityAt_computeReport (reports : List Report) (deliveries : List Delivery)
    (month : String) (year : Int) (k : String)
    (hnd : ∀ d ∈ deliveries, d.drugs.Nodup)
    (hkeys : ∀ d ∈ deliveries, ∀ p ∈ d.drugQuantities, p.1 ∈ d.drugs) :
    quantityAt (computeReport reports deliveries month year).drugs k
      = deliveredSum deliveries month year k := by
  unfold computeReport computeDrugs deliveredSum
  simp only
  rw [quantityAt_foldl_addDelivery, quantityAt_resetQuantities, zero_add]
  apply congrArg List.sum
  apply List.map_congr_left
  intro d hd
  have hmem : d ∈ deliveries := (List.mem_filter.mp hd).1
  by_cases hk : k ∈ d.drugs
  · rw [List.count_eq_one_of_mem (hnd d hmem) hk]
    simp
  · rw [List.count_eq_zero_of_not_mem hk]
    have hq : qtyOf d.drugQuantities k = 0 := by
      unfold qtyOf
      cases hf : aFind d.drugQuantities k with
      | none => rfl
      | some v =>
        cases v with
        | none => rfl
        | some n =>
          exact absurd (hkeys d hmem _ (aFind_mem hf)) hk
    rw [hq]
    simp

/-- Claim C1: the report returned by the monthly-report read has, for each
drug, quantity equal to the sum of drugQuantities[drug] over all stored
deliveries whose month and year match, and totalUsed equal to the sum of the
per-drug quantities of the returned report, regardless of the stored
monthly-report document (which only contributes inert zeroed keys). -/
theorem c1_monthly_report_recompute (reports : List Report)
    (deliveries : List Delivery) (month : String) (year : Int) (k : String)
    (hnd : ∀ d ∈ deliveries, d.drugs.Nodup)
    (hkeys : ∀ d ∈ deliveries, ∀ p ∈ d.drugQuantities, p.1 ∈ d.drugs) :
    quantityAt (computeReport reports deliveries month year).drugs k
      = deliveredSum deliveries month year k ∧
    (computeReport reports deliveries month year).totalUsed
      = sumQ (computeReport reports deliveries month year).drugs := by
  exact ⟨quantityAt_computeReport reports deliveries month year k hnd hkeys, rfl⟩

/-- Witness for c1_monthly_report_recompute: one delivery of 20 units in
month Mehr 2025, read against a stale stored report claiming 999, yields
quantity 20 = the delivered sum. -/
theorem c1_monthly_report_recompute_witness :
    (quantityAt (computeReport
        [⟨"مهر", 2025, [("قرص متادون 5", ⟨999, "عدد"⟩)], 999, 0, 0⟩]
        [⟨"1", "100", "علی رضایی", "1234567890", ["قرص متادون 5"],
          [("قرص متادون 5", some 20)], "دلیل تحویل", "مهر", 2025⟩]
        "مهر" 2025).drugs "قرص متادون 5"
      = deliveredSum
          [⟨"1", "100", "علی رضایی", "1234567890", ["قرص متادون 5"],
            [("قرص متادون 5", some 20)], "دلیل تحویل", "مهر", 2025⟩]
          "مهر" 2025 "قرص متادون 5" ∧
      (computeReport
        [⟨"مهر", 2025, [("قرص متادون 5", ⟨999, "عدد"⟩)], 999, 0, 0⟩]
        [⟨"1", "100", "علی رضایی", "1234567890", ["قرص متادون 5"],
          [("قرص متادون 5", some 20)], "دلیل تحویل", "مهر", 2025⟩]
        "مهر" 2025).totalUsed
      = sumQ (computeReport
        [⟨"مهر", 2025, [("قرص متادون 5", ⟨999, "عدد"⟩)], 999, 0, 0⟩]
        [⟨"1", "100", "علی رضایی", "1234567890", ["قرص متادون 5"],
          [("قرص متادون 5", some 20)], "دلیل تحویل", "مهر", 2025⟩]
        "مهر" 2025).drugs) ∧
    deliveredSum
      [⟨"1", "100", "علی رضایی", "1234567890", ["قرص متادون 5"],
        [("قرص متادون 5", some 20)], "دلیل تحویل", "مهر", 2025⟩]
      "مهر" 2025 "قرص متادون 5" = 20 := by
  refine ⟨c1_monthly_report_recompute _ _ _ _ _ ?_ ?_, ?_⟩
  · decide
  · decide
  · decide

/-- A stored patient (presentational fields omitted). -/
structure Patient where
  id : String
  fullName : String
  nationalCode : String
  birthDate : String
  visitDate : String
  recordNumber : String
  quota : Int
  drug : String
deriving DecidableEq

/-- A quota-history audit entry. -/
structure QuotaEntry where
  patientId : String
  patientName : String
  month : String
  date : String
  amount : Int
  operation : String
  createdAt : String
deriving DecidableEq

/-- The whole persistent state: one field per JSON document. -/
structure ServerState where
  patients : List Patient
  quotaHistory : List QuotaEntry
  globalQuota : GlobalQuota
  drugDelivery : List Delivery
  monthlyReport : List Report
deriving DecidableEq

def isOkE {α : Type} : Except String α → Bool
  | .ok _ => true
  | .error _ => false

/-- A value of the drugs array passed to updateMonthlyReport: either a
drug-name string (normal callers) or a plain object (the subtract step of
the delivery update maps the old drugs to objects). As a property key an
object coerces to the string "[object Object]"; calling includes on it
throws a TypeError. -/
inductive JDrug where
  | str (s : String)
  | obj (drug : String) (quantity : Int)
deriving DecidableEq

def jKey : JDrug → String
  | .str s => s
  | .obj _ _ => "[object Object]"

/-- The fields of the argument object that updateMonthlyReport reads. -/
structure JDelivery where
  month : String
  year : Int
  drugs : List JDrug
  drugQuantities : List (String × Option Int)

/-- One iteration of the forEach inside updateMonthlyReport. The error case
models the TypeError raised when the element is an object and the key
"[object Object]" is not yet present, so its type label is computed by
calling includes on the object. -/
def updStep (dq : List (String × Option Int)) (m : DrugsMap) (jd : JDrug) :
    Except Unit DrugsMap :=
  match aFind m (jKey jd) with
  | some e => .ok (aSet m (jKey jd) { e with quantity := e.quantity + qtyOf dq (jKey jd) })
  | none =>
    match jd with
    | .str s => .ok (aSet m (jKey jd) ⟨qtyOf dq (jKey jd), typeOf s⟩)
    | .obj _ _ => .error ()

/-- updateMonthlyReport: locate or create the report for the delivery key,
add each delivered quantity, recompute totalUsed, persist. Every exception
is caught internally and merely logged, so on a TypeError the stored report
list is returned unchanged. -/
def updateMonthlyReport (d : JDelivery) (reports : List Report) : List Report :=
  let located :=
    match findIdxA (fun r => r.month == d.month && r.year == d.year) reports with
    | some i => (reports, i)
    | none => (reports ++ [freshReport d.month d.year], reports.length)
  match located.1.get? located.2 with
  | none => reports
  | some r =>
    match d.drugs.foldlM (updStep d.drugQuantities) r.drugs with
    | .error _ => reports
    | .ok m => located.1.set located.2 { r with drugs := m, totalUsed := sumQ m }

/-- The inline validation of PUT /api/drug-delivery/:id; it throws at the
first violation. The reason check compares the trimmed length against 0,
mirroring the source text literally. -/
def validatePutDelivery (drugs : List String) (dq : List (String × Option Int))
    (reason : String) : Except String Unit := do
  if drugs.isEmpty then throw "حداقل یک دارو باید انتخاب شود"
  if reason = "" ∨ (jsTrim reason).length < 0 then
    throw "دلیل تحویل باید حداقل 5 حرف داشته باشد"
  let invalid := drugs.filter (fun x => !(VALID_DRUGS.contains x))
  if !invalid.isEmpty then
    throw ("داروهای نامعتبر: " ++ String.intercalate ", " invalid)
  if dq.length ≠ drugs.length then throw "مقادیر داروها الزامی است"
  for drug in drugs do
    match aFind dq drug with
    | none => throw ("مقدار نامعتبر برای " ++ drug)
    | some none => throw ("مقدار نامعتبر برای " ++ drug)
    | some (some q) =>
      if jsIncludes drug "شربت" then
        if q < 1 ∨ 1000 < q then throw "مقدار شربت باید بین 1 تا 1000 سی‌سی باشد"
      else
        if q < 1 then throw "مقدار قرص باید حداقل 1 عدد باشد"

/-- PUT /api/drug-delivery/:id: validate, locate the delivery, overwrite it,
then reconcile the monthly report by calling updateMonthlyReport first with
the old delivery whose drugs array was mapped to objects carrying negated
quantities, then with the new delivery. -/
def putDrugDelivery (id : String) (drugs : List String)
    (dq : List (String × Option Int)) (reason : String) (st : ServerState) :
    Except String Unit × ServerState :=
  match validatePutDelivery drugs dq reason with
  | .error m => (.error m, st)
  | .ok _ =>
    match findIdxA (fun d => d.id == id) st.drugDelivery with
    | none => (.error "تحویل دارو یافت نشد", st)
    | some i =>
      match st.drugDelivery.get? i with
      | none => (.error "تحویل دارو یافت نشد", st)
      | some oldDelivery =>
        let newDelivery :=
          { oldDelivery with drugs := drugs, drugQuantities := dq, reason := reason }
        let deliveries := st.drugDelivery.set i newDelivery
        let r1 := updateMonthlyReport
          ⟨oldDelivery.month, oldDelivery.year,
           oldDelivery.drugs.map
             (fun drug => .obj drug (-(qtyOf oldDelivery.drugQuantities drug))),
           oldDelivery.drugQuantities⟩ st.monthlyReport
        let r2 := updateMonthlyReport
          ⟨newDelivery.month, newDelivery.year, newDelivery.drugs.map .str,
           newDelivery.drugQuantities⟩ r1
        (.ok (), { st with drugDelivery := deliveries, monthlyReport := r2 })

/-- Claim C2 names a code bug: updating a delivery from quantity 20 to
quantity 30 should leave the stored report at 30 (minus old, plus new), but
the subtract call passes objects as drug names, updateMonthlyReport throws a
TypeError on them and catches it internally, so the old 20 is never
subtracted and the stored report ends at 20 + 30 = 50, while the operation
still reports success. -/
theorem c2_update_delivery_bug :
    (putDrugDelivery "1" ["قرص متادون 5"] [("قرص متادون 5", some 30)] "دلیل جدید"
      ⟨[], [], ⟨[]⟩,
       [⟨"1", "100", "علی رضایی", "1234567890", ["قرص متادون 5"],
         [("قرص متادون 5", some 20)], "دلیل تحویل", "مهر", 2025⟩],
       [⟨"مهر", 2025,
         [("شربت متادون", ⟨0, "cc"⟩), ("شربت اپیوم", ⟨0, "cc"⟩),
          ("قرص متادون 5", ⟨20, "عدد"⟩), ("قرص متادون 20", ⟨0, "عدد"⟩),
          ("قرص متادون 40", ⟨0, "عدد"⟩)], 20, 0, 0⟩]⟩).2.monthlyReport.map
      (fun r => quantityAt r.drugs "قرص متادون 5") = [50] ∧
    isOkE (putDrugDelivery "1" ["قرص متادون 5"] [("قرص متادون 5", some 30)] "دلیل جدید"
      ⟨[], [], ⟨[]⟩,
       [⟨"1", "100", "علی رضایی", "1234567890", ["قرص متادون 5"],
         [("قرص متادون 5", some 20)], "دلیل تحویل", "مهر", 2025⟩],
       [⟨"مهر", 2025,
         [("شربت متادون", ⟨0, "cc"⟩), ("شربت اپیوم", ⟨0, "cc"⟩),
          ("قرص متادون 5", ⟨20, "عدد"⟩), ("قرص متادون 20", ⟨0, "عدد"⟩),
          ("قرص متادون 40", ⟨0, "عدد"⟩)], 20, 0, 0⟩]⟩).1 = true ∧
    ¬ (50 : Int) = 30 := by
  refine ⟨?_, ?_, ?_⟩ <;> decide

/-- A registration/update payload. quota is Option Int: none models a
missing or non-numeric value (NaN). -/
structure RegInput where
  fullName : String
  nationalCode : String
  birthDate : String
  visitDate : String
  recordNumber : String
  quota : Option Int
  drug : String
deriving DecidableEq

/-- validatePatientData: accumulate every violation, in source order. -/
def validatePatientData (r : RegInput) : List String :=
  (if r.fullName = "" ∨ (jsTrim r.fullName).length < 3
   then ["نام بیمار باید حداقل 3 حرف داشته باشد"] else []) ++
  (if ¬ (r.nationalCode.length = 10 ∧ r.nationalCode.toList.all Char.isDigit)
   then ["کد ملی باید 10 رقم باشد"] else []) ++
  (if r.birthDate = "" ∨ r.visitDate = ""
   then ["تاریخ تولد و مراجعه الزامی است"] else []) ++
  (if r.recordNumber = "" ∨ (jsTrim r.recordNumber).length < 3
   then ["شماره پرونده الزامی است"] else []) ++
  (if (match r.quota with | none => true | some q => decide (q ≤ 0)) = true
   then ["سهمیه باید عدد مثبت باشد"] else []) ++
  (if VALID_DRUGS.contains r.drug then [] else ["داروی انتخاب شده معتبر نیست"])

/-- A delivery payload as posted to the API. An empty string models a
missing (falsy) identifier. -/
structure DeliveryInput where
  recordNumber : String
  patientName : String
  nationalCode : String
  drugs : List String
  reason : String
  drugQuantities : List (String × Option Int)
deriving DecidableEq

/-- validateDeliveryData: accumulate every violation, in source order. The
reason check is transcribed literally: the source compares the trimmed
length against 0 (which never holds), so only an empty (falsy) reason is
flagged, although the message announces a 5-character minimum. -/
def validateDeliveryData (d : DeliveryInput) : List String :=
  (if d.recordNumber = "" ∨ d.patientName = "" ∨ d.nationalCode = ""
   then ["اطلاعات بیمار الزامی است"] else []) ++
  (if d.drugs.isEmpty then ["حداقل یک دارو باید انتخاب شود"] else []) ++
  (if d.reason = "" ∨ (jsTrim d.reason).length < 0
   then ["دلیل تحویل باید حداقل 5 حرف داشته باشد"] else []) ++
  (let invalid := d.drugs.filter (fun x => !(VALID_DRUGS.contains x))
   if invalid.isEmpty then []
   else ["داروهای نامعتبر: " ++ String.intercalate ", " invalid]) ++
  (if d.drugQuantities.length ≠ d.drugs.length
   then ["مقادیر داروها الزامی است"] else []) ++
  (d.drugQuantities.foldl (fun acc p =>
    match p.2 with
    | none => acc ++ ["مقدار نامعتبر برای " ++ p.1]
    | some q =>
      if jsIncludes p.1 "شربت" then
        if q < 1 ∨ 1000 < q then acc ++ ["مقدار شربت باید بین 1 تا 1000 سی‌سی باشد"]
        else acc
      else
        if q < 1 then acc ++ ["مقدار قرص باید حداقل 1 عدد باشد"] else acc) [])

/-- Claim C9 names a code bug: a delivery whose reason is the 2-character
string given below passes validation with no error at all (the source
compares the trimmed length against 0, not 5, contradicting its own error
message), while a payload with several violations does accumulate all of
their messages into one list. -/
theorem c9_reason_check_bug :
    validateDeliveryData
      ⟨"100", "علی رضایی", "1234567890", ["قرص متادون 5"], "اب",
       [("قرص متادون 5", some 20)]⟩ = [] ∧
    validateDeliveryData
      ⟨"", "علی رضایی", "1234567890", [], "دلیل معتبر", [("قرص متادون 5", some 20)]⟩
      = ["اطلاعات بیمار الزامی است", "حداقل یک دارو باید انتخاب شود",
         "مقادیر داروها الزامی است"] := by
  exact ⟨by decide, by decide⟩

/-- The quota check and deduction of patient registration: fail if the
entry is missing or if the requested amount exceeds the remaining total,
else deduct and stamp lastUpdated. -/
def reserveQ (today : Today) (drug : String) (amount : Int) (g : GlobalQuota) :
    Except String GlobalQuota :=
  match aFind g.drugs drug with
  | none => .error "داروی انتخاب شده معتبر نیست"
  | some e =>
    if amount > e.totalQuota then
      .error "سهمیه درخواستی بیشتر از سهمیه کل است"
    else
      .ok ⟨aSet g.drugs drug
        { e with totalQuota := e.totalQuota - amount, lastUpdated := today.date }⟩

/-- The release step of patient deletion (and of the old drug on a patient
update): add the amount back and stamp lastUpdated, if the entry exists. -/
def releaseQ (today : Today) (drug : String) (amount : Int) (g : GlobalQuota) :
    GlobalQuota :=
  match aFind g.drugs drug with
  | none => g
  | some e =>
    ⟨aSet g.drugs drug
      { e with totalQuota := e.totalQuota + amount, lastUpdated := today.date }⟩

/-- POST /api/patients: validate, reject duplicate identifiers, run
manageGlobalQuota (which persists any reset), check and deduct the
requested quota for the chosen drug, then append the new patient. When the
quota check fails, the state persisted so far is the manageGlobalQuota
result only. The deducted amount is `parseInt(quota) || 0`, which under a
passed validation equals the quota value itself. -/
def registerPatient (today : Today) (newId : String) (reg : RegInput)
    (st : ServerState) : Except String Unit × ServerState :=
  match validatePatientData reg with
  | e :: es => (.error (String.intercalate "\n" (e :: es)), st)
  | [] =>
    match st.patients.find? (fun p =>
        p.nationalCode == reg.nationalCode || p.recordNumber == reg.recordNumber) with
    | some _ => (.error "بیمار با این کد ملی یا کد رهگیری قبلاً ثبت شده است", st)
    | none =>
      let g := manageGlobalQuota today st.globalQuota
      let requestedQuota := reg.quota.getD 0
      match reserveQ today reg.drug requestedQuota g with
      | .error m => (.error m, { st with globalQuota := g })
      | .ok g2 =>
        let newPatient : Patient :=
          ⟨newId, reg.fullName, reg.nationalCode, reg.birthDate, reg.visitDate,
           reg.recordNumber, requestedQuota, reg.drug⟩
        (.ok (), { st with globalQuota := g2, patients := st.patients ++ [newPatient] })

/-- Claim C3: a registration whose requested quota strictly exceeds the
remaining total for the chosen drug fails and persists no deduction (the
drug total after the operation equals its value before, given that no
monthly reset applies to it); a requested quota at most the remaining total
passes the check, the registration succeeds and the total is reduced by the
requested amount. -/
theorem c3_registration_quota_check (today : Today) (newId : String)
    (reg : RegInput) (st : ServerState) (e : DrugQuota)
    (hv : validatePatientData reg = [])
    (hc : st.patients.find? (fun p =>
        p.nationalCode == reg.nationalCode || p.recordNumber == reg.recordNumber) = none)
    (he : aFind st.globalQuota.drugs reg.drug = some e)
    (hm : getMonth e.lastUpdated = getMonth today.date) :
    (reg.quota.getD 0 > e.totalQuota →
      isOkE (registerPatient today newId reg st).1 = false ∧
      totalOf (registerPatient today newId reg st).2.globalQuota reg.drug
        = some e.totalQuota) ∧
    (reg.quota.getD 0 ≤ e.totalQuota →
      isOkE (registerPatient today newId reg st).1 = true ∧
      totalOf (registerPatient today newId reg st).2.globalQuota reg.drug
        = some (e.totalQuota - reg.quota.getD 0)) := by
  have hg : aFind (manageGlobalQuota today st.globalQuota).drugs reg.drug = some e :=
    aFind_manage_of_monthEq today st.globalQuota he hm
  constructor
  · intro hgt
    unfold registerPatient
    rw [hv, hc]
    simp only [reserveQ, hg, if_pos hgt]
    exact ⟨rfl, by unfold totalOf; rw [hg]; rfl⟩
  · intro hle
    have hnotgt : ¬ reg.quota.getD 0 > e.totalQuota := not_lt.mpr hle
    unfold registerPatient
    rw [hv, hc]
    simp only [reserveQ, hg, if_neg hnotgt]
    refine ⟨rfl, ?_⟩
    unfold totalOf
    simp only
    rw [aFind_aSet]
    simp

/-- Witness for c3_registration_quota_check: with 100 units remaining, a
request for 200 fails and leaves 100; a request for 50 succeeds and leaves
50. -/
theorem c3_registration_quota_check_witness :
    totalOf (registerPatient ⟨⟨2025, 10, 11⟩, 0, 0⟩ "p1"
      ⟨"علی رضایی", "1234567890", "1370/01/01", "1404/07/19", "1234", some 200, "شربت متادون"⟩
      ⟨[], [], ⟨[("شربت متادون", ⟨100, ⟨2025, 10, 1⟩, false, [], []⟩)]⟩, [], []⟩).2.globalQuota
      "شربت متادون" = some 100 ∧
    totalOf (registerPatient ⟨⟨2025, 10, 11⟩, 0, 0⟩ "p2"
      ⟨"علی رضایی", "1234567890", "1370/01/01", "1404/07/19", "1234", some 50, "شربت متادون"⟩
      ⟨[], [], ⟨[("شربت متادون", ⟨100, ⟨2025, 10, 1⟩, false, [], []⟩)]⟩, [], []⟩).2.globalQuota
      "شربت متادون" = some 50 := by
  constructor
  · exact ((c3_registration_quota_check ⟨⟨2025, 10, 11⟩, 0, 0⟩ "p1"
      ⟨"علی رضایی", "1234567890", "1370/01/01", "1404/07/19", "1234", some 200, "شربت متادون"⟩
      ⟨[], [], ⟨[("شربت متادون", ⟨100, ⟨2025, 10, 1⟩, false, [], []⟩)]⟩, [], []⟩
      ⟨100, ⟨2025, 10, 1⟩, false, [], []⟩
      (by decide) (by decide) (by decide) (by decide)).1 (by decide)).2
  · have h := ((c3_registration_quota_check ⟨⟨2025, 10, 11⟩, 0, 0⟩ "p2"
      ⟨"علی رضایی", "1234567890", "1370/01/01", "1404/07/19", "1234", some 50, "شربت متادون"⟩
      ⟨[], [], ⟨[("شربت متادون", ⟨100, ⟨2025, 10, 1⟩, false, [], []⟩)]⟩, [], []⟩
      ⟨100, ⟨2025, 10, 1⟩, false, [], []⟩
      (by decide) (by decide) (by decide) (by decide)).2 (by decide)).2
    simpa using h

theorem mem_of_getQ {α : Type} {l : List α} {i : Nat} {a : α}
    (h : l.get? i = some a) : a ∈ l := by
  induction l generalizing i with
  | nil => simp [List.get?] at h
  | cons b rest ih =>
    cases i with
    | zero =>
      simp only [List.get?] at h
      cases h
      exact List.mem_cons_self _ _
    | succ n =>
      simp only [List.get?] at h
      exact List.mem_cons_of_mem _ (ih h)

theorem findIdxA_getQ {α : Type} (p : α → Bool) {l : List α} {i : Nat}
    (h : findIdxA p l = some i) : ∃ a, l.get? i = some a ∧ p a = true := by
  induction l generalizing i with
  | nil => simp [findIdxA] at h
  | cons b rest ih =>
    simp only [findIdxA] at h
    by_cases hp : p b
    · rw [if_pos hp] at h
      cases h
      exact ⟨b, rfl, hp⟩
    · rw [if_neg hp] at h
      cases hj : findIdxA p rest with
      | none => rw [hj] at h; cases h
      | some j =>
        rw [hj] at h
        simp at h
        obtain ⟨a, ha, hpa⟩ := ih hj
        cases h
        exact ⟨a, ha, hpa⟩

theorem map_eraseIdx {α β : Type} (f : α → β) (l : List α) (i : Nat) :
    (l.eraseIdx i).map f = (l.map f).eraseIdx i := by
  induction l generalizing i with
  | nil => cases i <;> rfl
  | cons a rest ih =>
    cases i with
    | zero => rfl
    | succ n => simp [List.eraseIdx, ih]

theorem not_mem_eraseIdx_of_nodup {α : Type} {l : List α} {i : Nat} {a : α}
    (hn : l.Nodup) (hg : l.get? i = some a) : a ∉ l.eraseIdx i := by
  induction l generalizing i with
  | nil => simp [List.get?] at hg
  | cons b rest ih =>
    have hn2 := List.nodup_cons.mp hn
    cases i with
    | zero =>
      simp only [List.get?] at hg
      cases hg
      simpa [List.eraseIdx] using hn2.1
    | succ n =>
      simp only [List.get?] at hg
      intro hmem
      simp only [List.eraseIdx] at hmem
      rcases List.mem_cons.mp hmem with h1 | h1
      · subst h1
        exact hn2.1 (mem_of_getQ hg)
      · exact ih hn2.2 hg h1

/-- The distinct (month, year) keys of the deliveries matching the removed
patient, in first-appearance order: the JS Set of month-year strings
(Persian month names contain no dash, so joining and re-splitting the key
string is the identity and the pair is a faithful model). -/
def monthsOf (deliveries : List Delivery) (rn nc : String) : List (String × Int) :=
  deliveries.foldl (fun acc d =>
    if d.recordNumber == rn || d.nationalCode == nc then
      if acc.contains (d.month, d.year) then acc else acc ++ [(d.month, d.year)]
    else acc) []

/-- deletePatientCompletely: remove the patient, drop every delivery whose
record number or national code matches, recalculate each touched monthly
report against the surviving deliveries, drop the quota history of the
patient id, and add the current patient quota back to the drug total after
a manageGlobalQuota pass. -/
def deletePatientCompletely (today : Today) (pid : String) (st : ServerState) :
    Except String Unit × ServerState :=
  match findIdxA (fun p => p.id == pid) st.patients with
  | none => (.error "بیمار یافت نشد", st)
  | some i =>
    match st.patients.get? i with
    | none => (.error "بیمار یافت نشد", st)
    | some patient =>
      let patients := st.patients.eraseIdx i
      let filteredDeliveries := st.drugDelivery.filter (fun d =>
        d.recordNumber != patient.recordNumber && d.nationalCode != patient.nationalCode)
      let reports :=
        if filteredDeliveries.length ≠ st.drugDelivery.length then
          (monthsOf st.drugDelivery patient.recordNumber patient.nationalCode).foldl
            (fun rs my => recalcMonthlyReport my.1 my.2 filteredDeliveries rs)
            st.monthlyReport
        else st.monthlyReport
      let quotaHistory := st.quotaHistory.filter (fun q => q.patientId != pid)
      let g := releaseQ today patient.drug patient.quota
        (manageGlobalQuota today st.globalQuota)
      (.ok (), ⟨patients, quotaHistory, g, filteredDeliveries, reports⟩)

/-- Claim C4: deleting a stored patient removes the patient record, every
delivery whose record number or national code matches, and every
quota-history entry with the patient id; it adds the current patient quota
back to the drug total (stated against the entry as left by the managed
read, which is the pre-state entry when no monthly reset applies); and a
subsequent monthly-report read recomputes from the surviving deliveries
only, so the removed deliveries no longer contribute to any month. -/
theorem c4_delete_patient_completely (today : Today) (pid : String)
    (st : ServerState) (i : Nat) (patient : Patient) (e : DrugQuota)
    (hfind : findIdxA (fun p => p.id == pid) st.patients = some i)
    (hget : st.patients.get? i = some patient)
    (hids : (st.patients.map (fun p => p.id)).Nodup)
    (he : aFind st.globalQuota.drugs patient.drug = some e)
    (hm : getMonth e.lastUpdated = getMonth today.date)
    (hnd : ∀ d ∈ st.drugDelivery, d.drugs.Nodup)
    (hkeys : ∀ d ∈ st.drugDelivery, ∀ p ∈ d.drugQuantities, p.1 ∈ d.drugs) :
    (∀ q ∈ (deletePatientCompletely today pid st).2.patients, q.id ≠ pid) ∧
    (∀ d ∈ (deletePatientCompletely today pid st).2.drugDelivery,
       d.recordNumber ≠ patient.recordNumber ∧ d.nationalCode ≠ patient.nationalCode) ∧
    (∀ q ∈ (deletePatientCompletely today pid st).2.quotaHistory, q.patientId ≠ pid) ∧
    totalOf (deletePatientCompletely today pid st).2.globalQuota patient.drug
      = some (e.totalQuota + patient.quota) ∧
    (∀ month year k,
       quantityAt (computeReport (deletePatientCompletely today pid st).2.monthlyReport
           (deletePatientCompletely today pid st).2.drugDelivery month year).drugs k
         = deliveredSum (deletePatientCompletely today pid st).2.drugDelivery month year k) := by
  have hpid : patient.id = pid := by
    obtain ⟨a, ha, hpa⟩ := findIdxA_getQ _ hfind
    rw [hget] at ha
    cases ha
    exact beq_iff_eq.mp hpa
  have hmg : aFind (manageGlobalQuota today st.globalQuota).drugs patient.drug = some e :=
    aFind_manage_of_monthEq today st.globalQuota he hm
  simp only [deletePatientCompletely, hfind, hget]
  refine ⟨?_, ?_, ?_, ?_, ?_⟩
  · intro q hq hqe
    have h1 : q.id ∈ (st.patients.eraseIdx i).map (fun p => p.id) :=
      List.mem_map_of_mem _ hq
    rw [map_eraseIdx] at h1
    have h2 : (st.patients.map (fun p => p.id)).get? i = some pid := by
      rw [List.get?_map, hget]
      simp [hpid]
    exact not_mem_eraseIdx_of_nodup hids h2 (hqe ▸ h1)
  · intro d hd
    have h1 := (List.mem_filter.mp hd).2
    have h2 := Bool.and_elim_left h1
    have h3 := Bool.and_elim_right h1
    exact ⟨bne_iff_ne.mp h2, bne_iff_ne.mp h3⟩
  · intro q hq
    exact bne_iff_ne.mp (List.mem_filter.mp hq).2
  · unfold releaseQ
    simp only [hmg]
    unfold totalOf
    simp only
    rw [aFind_aSet]
    simp
  · intro month year k
    apply quantityAt_computeReport
    · intro d hd
      exact hnd d (List.mem_filter.mp hd).1
    · intro d hd
      exact hkeys d (List.mem_filter.mp hd).1

/-- Witness for c4_delete_patient_completely: a patient with quota 500 and
one delivery is deleted; the drug total rises from 100 to 600. -/
theorem c4_delete_patient_completely_witness :
    totalOf (deletePatientCompletely ⟨⟨2025, 10, 11⟩, 0, 0⟩ "p1"
      ⟨[⟨"p1", "علی رضایی", "1234567890", "1370/01/01", "1404/07/19", "1234", 500, "شربت متادون"⟩],
       [⟨"p1", "علی رضایی", "مهر", "1404/07/19", 500, "add", "t"⟩],
       ⟨[("شربت متادون", ⟨100, ⟨2025, 10, 1⟩, false, [], []⟩)]⟩,
       [⟨"d1", "1234", "علی رضایی", "1234567890", ["قرص متادون 5"],
         [("قرص متادون 5", some 20)], "دلیل تحویل", "مهر", 2025⟩],
       []⟩).2.globalQuota "شربت متادون" = some 600 := by
  exact (c4_delete_patient_completely ⟨⟨2025, 10, 11⟩, 0, 0⟩ "p1"
      ⟨[⟨"p1", "علی رضایی", "1234567890", "1370/01/01", "1404/07/19", "1234", 500, "شربت متادون"⟩],
       [⟨"p1", "علی رضایی", "مهر", "1404/07/19", 500, "add", "t"⟩],
       ⟨[("شربت متادون", ⟨100, ⟨2025, 10, 1⟩, false, [], []⟩)]⟩,
       [⟨"d1", "1234", "علی رضایی", "1234567890", ["قرص متادون 5"],
         [("قرص متادون 5", some 20)], "دلیل تحویل", "مهر", 2025⟩],
       []⟩ 0
      ⟨"p1", "علی رضایی", "1234567890", "1370/01/01", "1404/07/19", "1234", 500, "شربت متادون"⟩
      ⟨100, ⟨2025, 10, 1⟩, false, [], []⟩
      (by decide) (by decide) (by decide) (by decide) (by decide)
      (by decide) (by decide)).2.2.2.1

inductive QOp where
  | res (n : Int)
  | rel (n : Int)
deriving DecidableEq

/-- One reserve or release as its request performs it: the request first
runs manageGlobalQuota (persisting it), then either the registration
deduction (reserveQ; a failed check persists only the managed state) or the
deletion release (releaseQ). -/
def runQOp (today : Today) (drug : String) (g : GlobalQuota) : QOp → GlobalQuota
  | .res n =>
    match reserveQ today drug n (manageGlobalQuota today g) with
    | .ok g2 => g2
    | .error _ => manageGlobalQuota today g
  | .rel n => releaseQ today drug n (manageGlobalQuota today g)

def runQOps (today : Today) (drug : String) (ops : List QOp) (g : GlobalQuota) :
    GlobalQuota :=
  ops.foldl (runQOp today drug) g

/-- Every reserve in the sequence succeeds at its point of execution. -/
def allResOK (today : Today) (drug : String) : List QOp → GlobalQuota → Bool
  | [], _ => true
  | op :: rest, g =>
    (match op with
     | .res n => isOkE (reserveQ today drug n (manageGlobalQuota today g))
     | .rel _ => true) && allResOK today drug rest (runQOp today drug g op)

def resSum : List QOp → Int
  | [] => 0
  | .res n :: rest => n + resSum rest
  | .rel _ :: rest => resSum rest

def relSum : List QOp → Int
  | [] => 0
  | .res _ :: rest => relSum rest
  | .rel n :: rest => n + relSum rest

theorem runQOps_total (today : Today) (drug : String) (ops : List QOp)
    (g : GlobalQuota) (e : DrugQuota)
    (he : aFind g.drugs drug = some e)
    (hm : getMonth e.lastUpdated = getMonth today.date)
    (hok : allResOK today drug ops g = true) :
    ∃ e2, aFind (runQOps today drug ops g).drugs drug = some e2 ∧
      e2.totalQuota = e.totalQuota - resSum ops + relSum ops ∧
      getMonth e2.lastUpdated = getMonth today.date := by
  induction ops generalizing g e with
  | nil =>
    exact ⟨e, he, by simp [runQOps, resSum, relSum], hm⟩
  | cons op rest ih =>
    have hge : aFind (manageGlobalQuota today g).drugs drug = some e :=
      aFind_manage_of_monthEq today g he hm
    simp only [allResOK, Bool.and_eq_true] at hok
    obtain ⟨hok1, hok2⟩ := hok
    cases op with
    | res n =>
      by_cases hgt : n > e.totalQuota
      · exfalso
        simp only [reserveQ, hge, if_pos hgt, isOkE] at hok1
        exact Bool.false_ne_true hok1
      · have hstep : runQOp today drug g (.res n) =
            ⟨aSet (manageGlobalQuota today g).drugs drug
              { e with totalQuota := e.totalQuota - n, lastUpdated := today.date }⟩ := by
          simp only [runQOp, reserveQ, hge, if_neg hgt]
        have hfind2 : aFind (runQOp today drug g (.res n)).drugs drug =
            some { e with totalQuota := e.totalQuota - n, lastUpdated := today.date } := by
          rw [hstep]
          simp only
          rw [aFind_aSet]
          simp
        have hrest := ih (runQOp today drug g (.res n))
          { e with totalQuota := e.totalQuota - n, lastUpdated := today.date }
          hfind2 rfl (by simpa using hok2)
        obtain ⟨e2, h1, h2, h3⟩ := hrest
        refine ⟨e2, ?_, ?_, h3⟩
        · simpa [runQOps, List.foldl_cons] using h1
        · rw [h2]
          simp only [resSum, relSum]
          ring
    | rel n =>
      have hstep : runQOp today drug g (.rel n) =
          ⟨aSet (manageGlobalQuota today g).drugs drug
            { e with totalQuota := e.totalQuota + n, lastUpdated := today.date }⟩ := by
        simp only [runQOp, releaseQ, hge]
      have hfind2 : aFind (runQOp today drug g (.rel n)).drugs drug =
          some { e with totalQuota := e.totalQuota + n, lastUpdated := today.date } := by
        rw [hstep]
        simp only
        rw [aFind_aSet]
        simp
      have hrest := ih (runQOp today drug g (.rel n))
        { e with totalQuota := e.totalQuota + n, lastUpdated := today.date }
        hfind2 rfl (by simpa using hok2)
      obtain ⟨e2, h1, h2, h3⟩ := hrest
      refine ⟨e2, ?_, ?_, h3⟩
      · simpa [runQOps, List.foldl_cons] using h1
      · rw [h2]
        simp only [resSum, relSum]
        ring

/-- Claim C7: for a drug whose entry is present and not due a monthly reset
(equal month-of-year with today, the proviso of the claim), any sequence of
reserves and releases in which every reserve succeeds and the total
reserved equals the total released leaves the drug total at its
pre-sequence value. -/
theorem c7_reserve_release_roundtrip (today : Today) (drug : String)
    (ops : List QOp) (g : GlobalQuota) (e : DrugQuota)
    (he : aFind g.drugs drug = some e)
    (hm : getMonth e.lastUpdated = getMonth today.date)
    (hok : allResOK today drug ops g = true)
    (hbal : resSum ops = relSum ops) :
    totalOf (runQOps today drug ops g) drug = some e.totalQuota := by
  obtain ⟨e2, h1, h2, h3⟩ := runQOps_total today drug ops g e he hm hok
  have he2 : e2.totalQuota = e.totalQuota := by
    rw [h2, hbal]
    ring
  unfold totalOf
  rw [h1]
  simp [he2]

/-- Witness for c7_reserve_release_roundtrip: reserve 30, reserve 20,
release 20, release 30 on a total of 100 ends at 100. -/
theorem c7_reserve_release_roundtrip_witness :
    totalOf (runQOps ⟨⟨2025, 10, 11⟩, 0, 0⟩ "شربت متادون"
      [.res 30, .res 20, .rel 20, .rel 30]
      ⟨[("شربت متادون", ⟨100, ⟨2025, 10, 1⟩, false, [], []⟩)]⟩) "شربت متادون"
      = some 100 := by
  exact c7_reserve_release_roundtrip ⟨⟨2025, 10, 11⟩, 0, 0⟩ "شربت متادون"
    [.res 30, .res 20, .rel 20, .rel 30]
    ⟨[("شربت متادون", ⟨100, ⟨2025, 10, 1⟩, false, [], []⟩)]⟩
    ⟨100, ⟨2025, 10, 1⟩, false, [], []⟩
    (by decide) (by decide) (by decide) (by decide)

/-- PUT /api/patients/:id: validate, locate by id, re-check uniqueness when
the identifiers changed, and if the drug changed: run manageGlobalQuota
(which persists its result), add the old quota back to the old drug entry
in memory, check the requested quota against the new drug entry, and only
on success persist the release-plus-deduction; a failed check returns
without saving, so the persisted quota state is the manageGlobalQuota
result alone and the in-memory release is discarded. -/
def putPatient (today : Today) (pid : String) (reg : RegInput) (st : ServerState) :
    Except String Unit × ServerState :=
  match validatePatientData reg with
  | e :: es => (.error (String.intercalate "\n" (e :: es)), st)
  | [] =>
    match findIdxA (fun p => p.id == pid) st.patients with
    | none => (.error "بیمار یافت نشد", st)
    | some i =>
      match st.patients.get? i with
      | none => (.error "بیمار یافت نشد", st)
      | some cur =>
        if (reg.nationalCode ≠ cur.nationalCode ∨ reg.recordNumber ≠ cur.recordNumber) ∧
            (st.patients.find? (fun p => p.id != pid &&
              (p.nationalCode == reg.nationalCode ||
               p.recordNumber == reg.recordNumber))).isSome = true then
          (.error "بیمار با این کد ملی یا کد رهگیری قبلاً ثبت شده است", st)
        else
          let merged : Patient :=
            ⟨cur.id, reg.fullName, reg.nationalCode, reg.birthDate, reg.visitDate,
             reg.recordNumber, reg.quota.getD 0, reg.drug⟩
          if reg.drug ≠ cur.drug then
            let g1 := releaseQ today cur.drug cur.quota
              (manageGlobalQuota today st.globalQuota)
            match aFind g1.drugs reg.drug with
            | none =>
              (.error "TypeError", { st with globalQuota := manageGlobalQuota today st.globalQuota })
            | some e2 =>
              if reg.quota.getD 0 > e2.totalQuota then
                (.error "سهمیه درخواستی بیشتر از سهمیه کل است",
                 { st with globalQuota := manageGlobalQuota today st.globalQuota })
              else
                (.ok (), { st with
                  globalQuota := ⟨aSet g1.drugs reg.drug
                    { e2 with totalQuota := e2.totalQuota - reg.quota.getD 0,
                              lastUpdated := today.date }⟩,
                  patients := st.patients.set i merged })
          else
            (.ok (), { st with patients := st.patients.set i merged })

/-- Claim C8 as stated is false: when the drug-change reservation fails, the
route returns before any save, so the release of the old drug exists only
in the discarded in-memory copy. Concretely, a patient holding 100 of the
first syrup is updated to the second syrup requesting 60 of its remaining
50: the update fails, and the stored total of the old drug is still 100,
not the 200 the claim asserts. -/
theorem c8_release_not_persisted_counterexample :
    isOkE (putPatient ⟨⟨2025, 10, 11⟩, 0, 0⟩ "p1"
      ⟨"علی رضایی", "1234567890", "1370/01/01", "1404/07/19", "1234", some 60, "شربت اپیوم"⟩
      ⟨[⟨"p1", "علی رضایی", "1234567890", "1370/01/01", "1404/07/19", "1234", 100, "شربت متادون"⟩],
       [], ⟨[("شربت متادون", ⟨100, ⟨2025, 10, 11⟩, false, [], []⟩),
             ("شربت اپیوم", ⟨50, ⟨2025, 10, 11⟩, false, [], []⟩)]⟩, [], []⟩).1 = false ∧
    totalOf (putPatient ⟨⟨2025, 10, 11⟩, 0, 0⟩ "p1"
      ⟨"علی رضایی", "1234567890", "1370/01/01", "1404/07/19", "1234", some 60, "شربت اپیوم"⟩
      ⟨[⟨"p1", "علی رضایی", "1234567890", "1370/01/01", "1404/07/19", "1234", 100, "شربت متادون"⟩],
       [], ⟨[("شربت متادون", ⟨100, ⟨2025, 10, 11⟩, false, [], []⟩),
             ("شربت اپیوم", ⟨50, ⟨2025, 10, 11⟩, false, [], []⟩)]⟩, [], []⟩).2.globalQuota
      "شربت متادون" = some 100 := by
  exact ⟨by decide, by decide⟩

/-- Claim C8, amended: on a drug change the route releases the old quota and
reserves the new one in memory; when the requested quota exceeds the new
drug total the update fails and the persisted state is exactly the
manageGlobalQuota result — the old drug total is NOT increased and the
patient list is unchanged (the release is discarded, not persisted); when
the reservation fits, the release and the deduction are both persisted. -/
theorem c8_drug_change_quota (today : Today) (pid : String) (reg : RegInput)
    (st : ServerState) (i : Nat) (cur : Patient) (e1 e2 : DrugQuota)
    (hv : validatePatientData reg = [])
    (hfind : findIdxA (fun p => p.id == pid) st.patients = some i)
    (hget : st.patients.get? i = some cur)
    (hnoconf : st.patients.find? (fun p => p.id != pid &&
      (p.nationalCode == reg.nationalCode || p.recordNumber == reg.recordNumber)) = none)
    (hdrug : reg.drug ≠ cur.drug)
    (he1 : aFind st.globalQuota.drugs cur.drug = some e1)
    (hm1 : getMonth e1.lastUpdated = getMonth today.date)
    (he2 : aFind st.globalQuota.drugs reg.drug = some e2)
    (hm2 : getMonth e2.lastUpdated = getMonth today.date) :
    (reg.quota.getD 0 > e2.totalQuota →
      isOkE (putPatient today pid reg st).1 = false ∧
      (putPatient today pid reg st).2.globalQuota = manageGlobalQuota today st.globalQuota ∧
      totalOf (putPatient today pid reg st).2.globalQuota cur.drug = some e1.totalQuota ∧
      (putPatient today pid reg st).2.patients = st.patients) ∧
    (reg.quota.getD 0 ≤ e2.totalQuota →
      isOkE (putPatient today pid reg st).1 = true ∧
      totalOf (putPatient today pid reg st).2.globalQuota cur.drug
        = some (e1.totalQuota + cur.quota) ∧
      totalOf (putPatient today pid reg st).2.globalQuota reg.drug
        = some (e2.totalQuota - reg.quota.getD 0)) := by
  have hg1 : aFind (manageGlobalQuota today st.globalQuota).drugs cur.drug = some e1 :=
    aFind_manage_of_monthEq today st.globalQuota he1 hm1
  have hg2 : aFind (manageGlobalQuota today st.globalQuota).drugs reg.drug = some e2 :=
    aFind_manage_of_monthEq today st.globalQuota he2 hm2
  have hncond : ¬ ((reg.nationalCode ≠ cur.nationalCode ∨ reg.recordNumber ≠ cur.recordNumber) ∧
      (st.patients.find? (fun p => p.id != pid &&
        (p.nationalCode == reg.nationalCode ||
         p.recordNumber == reg.recordNumber))).isSome = true) := by
    intro h
    rw [hnoconf] at h
    simp at h
  have hrel : releaseQ today cur.drug cur.quota (manageGlobalQuota today st.globalQuota) =
      ⟨aSet (manageGlobalQuota today st.globalQuota).drugs cur.drug
        { e1 with totalQuota := e1.totalQuota + cur.quota, lastUpdated := today.date }⟩ := by
    simp only [releaseQ, hg1]
  have hfind2 : aFind (releaseQ today cur.drug cur.quota
      (manageGlobalQuota today st.globalQuota)).drugs reg.drug = some e2 := by
    rw [hrel]
    simp only
    rw [aFind_aSet, if_neg (fun h : cur.drug = reg.drug => hdrug h.symm)]
    exact hg2
  constructor
  · intro hgt
    have hP : putPatient today pid reg st =
        (.error "سهمیه درخواستی بیشتر از سهمیه کل است",
         { st with globalQuota := manageGlobalQuota today st.globalQuota }) := by
      simp only [putPatient, hv, hfind, hget, if_neg hncond, if_pos hdrug, hfind2,
        if_pos hgt]
    rw [hP]
    refine ⟨rfl, rfl, ?_, rfl⟩
    unfold totalOf
    simp only
    rw [hg1]
    rfl
  · intro hle
    have hngt : ¬ reg.quota.getD 0 > e2.totalQuota := not_lt.mpr hle
    have hP : putPatient today pid reg st =
        (.ok (), { st with
          globalQuota := ⟨aSet (releaseQ today cur.drug cur.quota
              (manageGlobalQuota today st.globalQuota)).drugs reg.drug
            { e2 with totalQuota := e2.totalQuota - reg.quota.getD 0,
                      lastUpdated := today.date }⟩,
          patients := st.patients.set i
            ⟨cur.id, reg.fullName, reg.nationalCode, reg.birthDate, reg.visitDate,
             reg.recordNumber, reg.quota.getD 0, reg.drug⟩ }) := by
      simp only [putPatient, hv, hfind, hget, if_neg hncond, if_pos hdrug, hfind2,
        if_neg hngt]
    rw [hP]
    refine ⟨rfl, ?_, ?_⟩
    · unfold totalOf
      simp only
      rw [aFind_aSet, if_neg (fun h : reg.drug = cur.drug => hdrug h), hrel]
      simp only
      rw [aFind_aSet, if_pos rfl]
      rfl
    · unfold totalOf
      simp only
      rw [aFind_aSet, if_pos rfl]
      rfl

/-- Witness for c8_drug_change_quota: the failed case leaves the old drug at
100; with a request of 40 against 50, the update succeeds, the old drug
rises to 200 and the new drug drops to 10. -/
theorem c8_drug_change_quota_witness :
    totalOf (putPatient ⟨⟨2025, 10, 11⟩, 0, 0⟩ "p1"
      ⟨"علی رضایی", "1234567890", "1370/01/01", "1404/07/19", "1234", some 60, "شربت اپیوم"⟩
      ⟨[⟨"p1", "علی رضایی", "1234567890", "1370/01/01", "1404/07/19", "1234", 100, "شربت متادون"⟩],
       [], ⟨[("شربت متادون", ⟨100, ⟨2025, 10, 11⟩, false, [], []⟩),
             ("شربت اپیوم", ⟨50, ⟨2025, 10, 11⟩, false, [], []⟩)]⟩, [], []⟩).2.globalQuota
      "شربت متادون" = some 100 ∧
    totalOf (putPatient ⟨⟨2025, 10, 11⟩, 0, 0⟩ "p1"
      ⟨"علی رضایی", "1234567890", "1370/01/01", "1404/07/19", "1234", some 40, "شربت اپیوم"⟩
      ⟨[⟨"p1", "علی رضایی", "1234567890", "1370/01/01", "1404/07/19", "1234", 100, "شربت متادون"⟩],
       [], ⟨[("شربت متادون", ⟨100, ⟨2025, 10, 11⟩, false, [], []⟩),
             ("شربت اپیوم", ⟨50, ⟨2025, 10, 11⟩, false, [], []⟩)]⟩, [], []⟩).2.globalQuota
      "شربت متادون" = some 200 ∧
    totalOf (putPatient ⟨⟨2025, 10, 11⟩, 0, 0⟩ "p1"
      ⟨"علی رضایی", "1234567890", "1370/01/01", "1404/07/19", "1234", some 40, "شربت اپیوم"⟩
      ⟨[⟨"p1", "علی رضایی", "1234567890", "1370/01/01", "1404/07/19", "1234", 100, "شربت متادون"⟩],
       [], ⟨[("شربت متادون", ⟨100, ⟨2025, 10, 11⟩, false, [], []⟩),
             ("شربت اپیوم", ⟨50, ⟨2025, 10, 11⟩, false, [], []⟩)]⟩, [], []⟩).2.globalQuota
      "شربت اپیوم" = some 10 := by
  refine ⟨?_, ?_, ?_⟩
  · exact (((c8_drug_change_quota ⟨⟨2025, 10, 11⟩, 0, 0⟩ "p1"
      ⟨"علی رضایی", "1234567890", "1370/01/01", "1404/07/19", "1234", some 60, "شربت اپیوم"⟩
      ⟨[⟨"p1", "علی رضایی", "1234567890", "1370/01/01", "1404/07/19", "1234", 100, "شربت متادون"⟩],
       [], ⟨[("شربت متادون", ⟨100, ⟨2025, 10, 11⟩, false, [], []⟩),
             ("شربت اپیوم", ⟨50, ⟨2025, 10, 11⟩, false, [], []⟩)]⟩, [], []⟩ 0
      ⟨"p1", "علی رضایی", "1234567890", "1370/01/01", "1404/07/19", "1234", 100, "شربت متادون"⟩
      ⟨100, ⟨2025, 10, 11⟩, false, [], []⟩ ⟨50, ⟨2025, 10, 11⟩, false, [], []⟩
      (by decide) (by decide) (by decide) (by decide) (by decide)
      (by decide) (by decide) (by decide) (by decide)).1 (by decide)).2.2).1
  · exact ((c8_drug_change_quota ⟨⟨2025, 10, 11⟩, 0, 0⟩ "p1"
      ⟨"علی رضایی", "1234567890", "1370/01/01", "1404/07/19", "1234", some 40, "شربت اپیوم"⟩
      ⟨[⟨"p1", "علی رضایی", "1234567890", "1370/01/01", "1404/07/19", "1234", 100, "شربت متادون"⟩],
       [], ⟨[("شربت متادون", ⟨100, ⟨2025, 10, 11⟩, false, [], []⟩),
             ("شربت اپیوم", ⟨50, ⟨2025, 10, 11⟩, false, [], []⟩)]⟩, [], []⟩ 0
      ⟨"p1", "علی رضایی", "1234567890", "1370/01/01", "1404/07/19", "1234", 100, "شربت متادون"⟩
      ⟨100, ⟨2025, 10, 11⟩, false, [], []⟩ ⟨50, ⟨2025, 10, 11⟩, false, [], []⟩
      (by decide) (by decide) (by decide) (by decide) (by decide)
      (by decide) (by decide) (by decide) (by decide)).2 (by decide)).2.1
  · exact ((c8_drug_change_quota ⟨⟨2025, 10, 11⟩, 0, 0⟩ "p1"
      ⟨"علی رضایی", "1234567890", "1370/01/01", "1404/07/19", "1234", some 40, "شربت اپیوم"⟩
      ⟨[⟨"p1", "علی رضایی", "1234567890", "1370/01/01", "1404/07/19", "1234", 100, "شربت متادون"⟩],
       [], ⟨[("شربت متادون", ⟨100, ⟨2025, 10, 11⟩, false, [], []⟩),
             ("شربت اپیوم", ⟨50, ⟨2025, 10, 11⟩, false, [], []⟩)]⟩, [], []⟩ 0
      ⟨"p1", "علی رضایی", "1234567890", "1370/01/01", "1404/07/19", "1234", 100, "شربت متادون"⟩
      ⟨100, ⟨2025, 10, 11⟩, false, [], []⟩ ⟨50, ⟨2025, 10, 11⟩, false, [], []⟩
      (by decide) (by decide) (by decide) (by decide) (by decide)
      (by decide) (by decide) (by decide) (by decide)).2 (by decide)).2.2

/-- The new total computed by a manual adjustment against the entry as left
by the managed read (the entry always exists for a validated drug; the
default only mirrors the lazy creation in the source). -/
def adjNewQuota (today : Today) (g : GlobalQuota) (drug action : String) (a : Int) : Int :=
  let e := (aFind (manageGlobalQuota today g).drugs drug).getD (defaultDrugEntry today)
  if action == "add" then e.totalQuota + a
  else if action == "subtract" then e.totalQuota - a
  else a

/-- PUT /api/global-quota: validate, run manageGlobalQuota (persisting it),
compute the new total by action, fail when it is negative (persisting only
the managed state, since the route throws before its own save), else record
the manual adjustment (newest first) and persist. -/
def putGlobalQuota (today : Today) (drug action : String) (amount : Option Int)
    (description : String) (st : ServerState) : Except String Unit × ServerState :=
  if ¬ VALID_DRUGS.contains drug then (.error "داروی انتخاب شده معتبر نیست", st)
  else if ¬ ["add", "subtract", "set"].contains action then (.error "عملیات نامعتبر", st)
  else
    match amount with
    | none => (.error "مقدار باید عدد باشد", st)
    | some a =>
      let g := manageGlobalQuota today st.globalQuota
      let e := (aFind g.drugs drug).getD (defaultDrugEntry today)
      let newQuota := adjNewQuota today st.globalQuota drug action a
      let adj : ManualAdjustment :=
        ⟨today.now, action, a, description,
         (if action == "set" then none else some e.totalQuota), newQuota⟩
      if newQuota < 0 then
        (.error "سهمیه نمی‌تواند منفی باشد", { st with globalQuota := g })
      else
        (.ok (), { st with globalQuota := ⟨aSet g.drugs drug
          { e with totalQuota := newQuota,
                   lastUpdated := today.date,
                   manualAdjustments := adj :: e.manualAdjustments }⟩ })

/-- POST /api/global-quota/monthly: validate (before any write), run
manageGlobalQuota, prepend the monthly-quota record with its computed
expiry instant, increase the total immediately, persist. The expression
`parseInt(expiryDays) || 30` maps a missing, NaN or zero value to 30. -/
def postGlobalQuotaMonthly (today : Today) (drug month : String)
    (amount : Option Int) (expiryDays : Option Int) (st : ServerState) :
    Except String Unit × ServerState :=
  if ¬ VALID_DRUGS.contains drug then (.error "داروی انتخاب شده معتبر نیست", st)
  else if month = "" ∨ (jsTrim month).length < 2 then (.error "نام ماه الزامی است", st)
  else
    match amount with
    | none => (.error "مقدار سهمیه باید عدد باشد", st)
    | some a =>
      let expiryDaysNum := match expiryDays with
        | none => 30
        | some n => if n = 0 then 30 else n
      let g := manageGlobalQuota today st.globalQuota
      let e := (aFind g.drugs drug).getD (defaultDrugEntry today)
      (.ok (), { st with globalQuota := ⟨aSet g.drugs drug
        { e with
          totalQuota := e.totalQuota + a,
          lastUpdated := today.date,
          monthlyQuotas :=
            ⟨month, a, expiryDaysNum, today.now,
             today.now + expiryDaysNum * 86400000⟩ :: e.monthlyQuotas }⟩ })

/-- POST /api/patients/:id/quota: validate, locate the patient; a subtract
operation adds the amount back to the global total of the patient drug
(after a managed read that is persisted); the patient quota itself is
increased or decreased with no guard; a history entry is prepended (its
server timestamp is not modelled). -/
def postPatientQuota (today : Today) (pid month date : String)
    (amount : Option Int) (operation : String) (st : ServerState) :
    Except String Unit × ServerState :=
  if month = "" ∨ date = "" ∨ operation = "" then
    (.error "تمام فیلدها الزامی هستند", st)
  else
    match amount with
    | none => (.error "مقدار سهمیه باید عدد باشد", st)
    | some a =>
      if ¬ ["add", "subtract"].contains operation then (.error "عملیات نامعتبر", st)
      else
        match findIdxA (fun p => p.id == pid) st.patients with
        | none => (.error "بیمار یافت نشد", st)
        | some i =>
          match st.patients.get? i with
          | none => (.error "بیمار یافت نشد", st)
          | some patient =>
            let g :=
              if operation == "subtract" then
                releaseQ today patient.drug a (manageGlobalQuota today st.globalQuota)
              else st.globalQuota
            let newQuota :=
              if operation == "add" then patient.quota + a else patient.quota - a
            (.ok (), { st with
              globalQuota := g,
              patients := st.patients.set i { patient with quota := newQuota },
              quotaHistory :=
                ⟨pid, patient.fullName, month, date, a, operation, ""⟩
                  :: st.quotaHistory })

/-- One API operation that can touch the global quota. -/
inductive Op where
  | register (newId : String) (reg : RegInput)
  | deletePatient (pid : String)
  | adjust (drug action : String) (amount : Option Int) (description : String)
  | topup (drug month : String) (amount : Option Int) (expiryDays : Option Int)
  | patientQuota (pid month date : String) (amount : Option Int) (operation : String)
  | updatePatient (pid : String) (reg : RegInput)
  | quotaGet

/-- The state left behind by one operation. -/
def runOp (today : Today) (op : Op) (st : ServerState) : ServerState :=
  match op with
  | .register newId reg => (registerPatient today newId reg st).2
  | .deletePatient pid => (deletePatientCompletely today pid st).2
  | .adjust d a amt ds => (putGlobalQuota today d a amt ds st).2
  | .topup d m amt ed => (postGlobalQuotaMonthly today d m amt ed st).2
  | .patientQuota pid m dt amt o => (postPatientQuota today pid m dt amt o st).2
  | .updatePatient pid reg => (putPatient today pid reg st).2
  | .quotaGet => { st with globalQuota := manageGlobalQuota today st.globalQuota }

/-- Every drug entry carries a nonnegative total. -/
def quotaInv (g : GlobalQuota) : Prop := ∀ p ∈ g.drugs, 0 ≤ p.2.totalQuota

/-- The nonnegativity side conditions of the amended claim C6 on the
operation amounts that the code leaves unguarded. -/
def opAmountOK : Op → Prop
  | .topup _ _ amt _ => 0 ≤ amt.getD 0
  | .patientQuota _ _ _ amt o => o = "subtract" → 0 ≤ amt.getD 0
  | _ => True

/-- Claim C6 as stated is false: the monthly top-up, one of the listed
operations, accepts a negative amount with no guard; topping up -20000 on a
fresh total of 10000 leaves the stored total at -10000 < 0. -/
theorem c6_nonneg_counterexample :
    totalOf (postGlobalQuotaMonthly ⟨⟨2025, 10, 11⟩, 0, 0⟩ "شربت متادون" "مهر"
      (some (-20000)) none
      ⟨[], [], ⟨[("شربت متادون", ⟨10000, ⟨2025, 10, 11⟩, false, [], []⟩)]⟩, [], []⟩).2.globalQuota
      "شربت متادون" = some (-10000) := by
  decide

instance (g : GlobalQuota) : Decidable (quotaInv g) := by
  unfold quotaInv; infer_instance

instance (op : Op) : Decidable (opAmountOK op) := by
  unfold opAmountOK; cases op <;> infer_instance

theorem quotaInv_find {g : GlobalQuota} {k : String} {e : DrugQuota}
    (hg : quotaInv g) (h : aFind g.drugs k = some e) : 0 ≤ e.totalQuota :=
  hg (k, e) (aFind_mem h)

theorem resetEntry_nonneg (today : Today) {e : DrugQuota} (he : 0 ≤ e.totalQuota) :
    0 ≤ (resetEntry today e).totalQuota := by
  unfold resetEntry
  split
  · norm_num
  · exact he

theorem quotaInvL_ensure (today : Today) (l : List String)
    (m : List (String × DrugQuota)) (hm : ∀ p ∈ m, 0 ≤ p.2.totalQuota) :
    ∀ p ∈ l.foldl (ensureStep today) m, 0 ≤ p.2.totalQuota := by
  induction l generalizing m with
  | nil => simpa using hm
  | cons d rest ih =>
    simp only [List.foldl_cons]
    apply ih
    unfold ensureStep
    cases hd : aFind m d with
    | some _ => exact hm
    | none =>
      intro p hp
      rcases mem_aSet hp with h | h
      · exact hm p h
      · rw [h]
        norm_num [defaultDrugEntry]

theorem quotaInv_manage (today : Today) {g : GlobalQuota} (hg : quotaInv g) :
    quotaInv (manageGlobalQuota today g) := by
  intro p hp
  simp only [manageGlobalQuota] at hp
  obtain ⟨q, hq, hq2⟩ := List.mem_map.mp hp
  have h3 := quotaInvL_ensure today VALID_DRUGS g.drugs hg q hq
  rw [← hq2]
  exact resetEntry_nonneg today h3

theorem quotaInv_reserveQ {today : Today} {drug : String} {n : Int}
    {g g2 : GlobalQuota} (hg : quotaInv g) (h : reserveQ today drug n g = .ok g2) :
    quotaInv g2 := by
  unfold reserveQ at h
  split at h
  · cases h
  · next e he =>
    split at h
    · cases h
    · next hgt =>
      cases h
      intro p hp
      rcases mem_aSet hp with h1 | h1
      · exact hg p h1
      · rw [h1]
        simp only
        push_neg at hgt
        omega

theorem quotaInv_releaseQ {today : Today} {drug : String} {n : Int}
    {g : GlobalQuota} (hg : quotaInv g) (hn : 0 ≤ n) :
    quotaInv (releaseQ today drug n g) := by
  unfold releaseQ
  cases he : aFind g.drugs drug with
  | none => exact hg
  | some e =>
    intro p hp
    rcases mem_aSet hp with h1 | h1
    · exact hg p h1
    · rw [h1]
      simp only
      have := quotaInv_find hg he
      omega

theorem quotaInv_register (today : Today) (newId : String) (reg : RegInput)
    (st : ServerState) (hg : quotaInv st.globalQuota) :
    quotaInv (registerPatient today newId reg st).2.globalQuota := by
  unfold registerPatient
  split
  · exact hg
  · split
    · exact hg
    · dsimp only
      split
      · exact quotaInv_manage today hg
      · next g2 hr => exact quotaInv_reserveQ (quotaInv_manage today hg) hr

theorem quotaInv_delete (today : Today) (pid : String) (st : ServerState)
    (hg : quotaInv st.globalQuota) (hp : ∀ p ∈ st.patients, 0 ≤ p.quota) :
    quotaInv (deletePatientCompletely today pid st).2.globalQuota := by
  unfold deletePatientCompletely
  split
  · exact hg
  · split
    · exact hg
    · next patient hpat =>
      exact quotaInv_releaseQ (quotaInv_manage today hg) (hp patient (mem_of_getQ hpat))

theorem quotaInv_adjust (today : Today) (drug action : String) (amount : Option Int)
    (description : String) (st : ServerState) (hg : quotaInv st.globalQuota) :
    quotaInv (putGlobalQuota today drug action amount description st).2.globalQuota := by
  unfold putGlobalQuota
  split
  · exact hg
  · split
    · exact hg
    · split
      · exact hg
      · next a =>
        dsimp only
        split
        · exact quotaInv_manage today hg
        · next hneg =>
          intro p hpmem
          rcases mem_aSet hpmem with h1 | h1
          · exact quotaInv_manage today hg p h1
          · rw [h1]
            simp only
            exact not_lt.mp hneg

theorem quotaInv_topup (today : Today) (drug month : String) (amount : Option Int)
    (expiryDays : Option Int) (st : ServerState) (hg : quotaInv st.globalQuota)
    (ha : 0 ≤ amount.getD 0) :
    quotaInv (postGlobalQuotaMonthly today drug month amount expiryDays st).2.globalQuota := by
  unfold postGlobalQuotaMonthly
  split
  · exact hg
  · split
    · exact hg
    · split
      · exact hg
      · next a =>
        dsimp only
        intro p hpmem
        rcases mem_aSet hpmem with h1 | h1
        · exact quotaInv_manage today hg p h1
        · rw [h1]
          simp only
          have he : 0 ≤ ((aFind (manageGlobalQuota today st.globalQuota).drugs
              drug).getD (defaultDrugEntry today)).totalQuota := by
            cases hf : aFind (manageGlobalQuota today st.globalQuota).drugs drug with
            | none => norm_num [defaultDrugEntry]
            | some e => simpa using quotaInv_find (quotaInv_manage today hg) hf
          have ha2 : 0 ≤ a := by simpa using ha
          omega

theorem quotaInv_patientQuota (today : Today) (pid month date : String)
    (amount : Option Int) (operation : String) (st : ServerState)
    (hg : quotaInv st.globalQuota)
    (ha : operation = "subtract" → 0 ≤ amount.getD 0) :
    quotaInv (postPatientQuota today pid month date amount operation st).2.globalQuota := by
  unfold postPatientQuota
  split
  · exact hg
  · split
    · exact hg
    · next a =>
      split
      · exact hg
      · split
        · exact hg
        · split
          · exact hg
          · next patient hpat =>
            show quotaInv (if operation == "subtract" then
              releaseQ today patient.drug a (manageGlobalQuota today st.globalQuota)
              else st.globalQuota)
            by_cases hop : operation == "subtract"
            · rw [if_pos hop]
              have ha2 : 0 ≤ a := by
                have := ha (beq_iff_eq.mp hop)
                simpa using this
              exact quotaInv_releaseQ (quotaInv_manage today hg) ha2
            · rw [if_neg hop]
              exact hg

theorem quotaInv_putPatient (today : Today) (pid : String) (reg : RegInput)
    (st : ServerState) (hg : quotaInv st.globalQuota)
    (hp : ∀ p ∈ st.patients, 0 ≤ p.quota) :
    quotaInv (putPatient today pid reg st).2.globalQuota := by
  unfold putPatient
  split
  · exact hg
  · split
    · exact hg
    · split
      · exact hg
      · next cur hcur =>
        split
        · exact hg
        · split
          · dsimp only
            split
            · exact quotaInv_manage today hg
            · next e2 he2 =>
              split
              · exact quotaInv_manage today hg
              · next hngt =>
                intro p hpmem
                rcases mem_aSet hpmem with h1 | h1
                · exact quotaInv_releaseQ (quotaInv_manage today hg)
                    (hp cur (mem_of_getQ hcur)) p h1
                · rw [h1]
                  simp only
                  push_neg at hngt
                  omega
          · exact hg

/-- Claim C6, amended: every operation preserves nonnegativity of all drug
totals, provided the stored patient quotas are nonnegative and the amounts
the code leaves unguarded (monthly top-up; patient-quota subtract) are
nonnegative; and a manual adjustment whose computed new total would be
negative fails with an error and leaves the stored quota exactly at the
state the managed read persisted. Without the amount conditions the
invariant fails (see the counterexample: a negative top-up). -/
theorem c6_total_quota_nonneg (today : Today) (op : Op) (st : ServerState)
    (hg : quotaInv st.globalQuota)
    (hp : ∀ p ∈ st.patients, 0 ≤ p.quota)
    (ha : opAmountOK op) :
    quotaInv (runOp today op st).globalQuota ∧
    (∀ drug action a description,
      adjNewQuota today st.globalQuota drug action a < 0 →
      VALID_DRUGS.contains drug = true →
      (["add", "subtract", "set"].contains action) = true →
      isOkE (putGlobalQuota today drug action (some a) description st).1 = false ∧
      (putGlobalQuota today drug action (some a) description st).2.globalQuota
        = manageGlobalQuota today st.globalQuota) := by
  constructor
  · cases op with
    | register newId reg => exact quotaInv_register today newId reg st hg
    | deletePatient pid => exact quotaInv_delete today pid st hg hp
    | adjust d a amt ds => exact quotaInv_adjust today d a amt ds st hg
    | topup d m amt ed => exact quotaInv_topup today d m amt ed st hg ha
    | patientQuota pid m dt amt o =>
      exact quotaInv_patientQuota today pid m dt amt o st hg ha
    | updatePatient pid reg => exact quotaInv_putPatient today pid reg st hg hp
    | quotaGet => exact quotaInv_manage today hg
  · intro drug action a description hneg hdrug haction
    unfold putGlobalQuota
    rw [if_neg (not_not_intro hdrug), if_neg (not_not_intro haction)]
    dsimp only
    rw [if_pos hneg]
    exact ⟨rfl, rfl⟩

/-- Witness for c6_total_quota_nonneg: a top-up of 500 on a fresh state
keeps every drug total nonnegative. -/
theorem c6_total_quota_nonneg_witness :
    quotaInv (runOp ⟨⟨2025, 10, 11⟩, 0, 0⟩
      (.topup "شربت متادون" "مهر" (some 500) none)
      ⟨[], [], ⟨[("شربت متادون", ⟨10000, ⟨2025, 10, 11⟩, false, [], []⟩)]⟩,
       [], []⟩).globalQuota := by
  exact (c6_total_quota_nonneg ⟨⟨2025, 10, 11⟩, 0, 0⟩
    (.topup "شربت متادون" "مهر" (some 500) none)
    ⟨[], [], ⟨[("شربت متادون", ⟨10000, ⟨2025, 10, 11⟩, false, [], []⟩)]⟩, [], []⟩
    (by decide) (by decide) (by decide)).1

/-- The whole document store at file granularity: `none` models an absent
file. Documents the monthly-report read never parses are kept as raw text.
loadFromJsonFile on an absent file writes the default content and returns
it — the only write the read path can perform. -/
structure FullStore where
  patientsRaw : Option String
  quotaHistoryRaw : Option String
  globalQuotaRaw : Option String
  notificationsRaw : Option String
  drugDelivery : Option (List Delivery)
  monthlyReport : Option (List Report)
deriving DecidableEq

/-- GET /api/monthly-report: load the stored reports (auto-creating the
file with [] when absent), load the deliveries likewise, and return the
recomputed report; nothing else is written — in particular the recomputed
report is never stored. -/
def getMonthlyReportRoute (month : String) (year : Int) (s : FullStore) :
    Report × FullStore :=
  let loadedReports :=
    match s.monthlyReport with
    | some v => (v, s)
    | none => ([], { s with monthlyReport := some [] })
  let s1 := loadedReports.2
  let loadedDeliveries :=
    match s1.drugDelivery with
    | some v => (v, s1)
    | none => ([], { s1 with drugDelivery := some [] })
  (computeReport loadedReports.1 loadedDeliveries.1 month year, loadedDeliveries.2)

/-- Claim C10 as stated is false: on a store whose monthly-report file does
not exist, the read operation writes — loadFromJsonFile creates the file
with the default empty list — so the store is not unchanged for every input
state. -/
theorem c10_read_writes_counterexample :
    (getMonthlyReportRoute "مهر" 2025
        ⟨some "[]", some "[]", some "{}", some "[]", some [], none⟩).2
      ≠ ⟨some "[]", some "[]", some "{}", some "[]", some [], none⟩ := by
  decide

/-- Claim C10, amended: whenever the monthly-report and drug-delivery files
already exist, the monthly-report read changes nothing: every document is
exactly as before, so the recomputed values it returns are never persisted
and the stored report may keep stale incrementally-written values between
reads; when either file is absent, the read creates exactly that file with
the default empty list. -/
theorem c10_read_frame (month : String) (year : Int) (s : FullStore)
    (h1 : s.monthlyReport.isSome = true) (h2 : s.drugDelivery.isSome = true) :
    (getMonthlyReportRoute month year s).2 = s := by
  unfold getMonthlyReportRoute
  cases hm : s.monthlyReport with
  | none => rw [hm] at h1; cases h1
  | some reports =>
    cases hd : s.drugDelivery with
    | none => rw [hd] at h2; cases h2
    | some deliveries =>
      dsimp only
      rw [hm, hd]

/-- Witness for c10_read_frame: a concrete store with both files present is
returned untouched. -/
theorem c10_read_frame_witness :
    (getMonthlyReportRoute "مهر" 2025
        ⟨some "[]", some "[]", some "{}", some "[]",
         some [⟨"1", "100", "علی رضایی", "1234567890", ["قرص متادون 5"],
           [("قرص متادون 5", some 20)], "دلیل تحویل", "مهر", 2025⟩],
         some []⟩).2
      = ⟨some "[]", some "[]", some "{}", some "[]",
         some [⟨"1", "100", "علی رضایی", "1234567890", ["قرص متادون 5"],
           [("قرص متادون 5", some 20)], "دلیل تحویل", "مهر", 2025⟩],
         some []⟩ := by
  exact c10_read_frame "مهر" 2025
    ⟨some "[]", some "[]", some "{}", some "[]",
     some [⟨"1", "100", "علی رضایی", "1234567890", ["قرص متادون 5"],
       [("قرص متادون 5", some 20)], "دلیل تحویل", "مهر", 2025⟩],
     some []⟩ (by decide) (by decide)
